import Mathlib

/-!
Verification of the flashcard generator (src/index.tsx).

The source is a single TypeScript file.  Its algorithmic content is:

* the inline response parser of the generate-button click handler
  (src/index.tsx lines 250-264), which turns the raw model reply into a
  list of `{term, definition}` records;
* `isUrl` / `createPrompt` (lines 141-162), which choose between two
  prompt templates;
* the CSV export handler with its local `escapeCsvField` (lines 103-135);
* `displayFlashcards` and the response branch of the click handler
  (lines 164-224 and 248-271), which route an empty response, a
  response parsing to zero cards, and a successful parse to distinct
  UI outcomes.

Strings are embedded as Lean `String`; the JavaScript string primitives
used by the source (`split` with a one-character separator, `trim`,
`join`, `startsWith`, the `/[",\n]/` test and `replace` of every double quote by two) are
given explicit executable models over the underlying character lists,
matching ECMAScript semantics.
-/

/-- A flashcard record, from `interface Flashcard` (src/index.tsx lines 7-10). -/
structure Flashcard where
  term : String
  definition : String
deriving DecidableEq, Repr

/-- The ECMAScript `WhiteSpace` and `LineTerminator` characters, the set
trimmed by `String.prototype.trim`. -/
def jsWhitespace (c : Char) : Bool :=
  c = ' ' || c = '\t' || c = '\n' || c = '\r' ||
  c.toNat = 0x0B || c.toNat = 0x0C || c.toNat = 0xA0 || c.toNat = 0x1680 ||
  (0x2000 ≤ c.toNat && c.toNat ≤ 0x200A) ||
  c.toNat = 0x2028 || c.toNat = 0x2029 || c.toNat = 0x202F ||
  c.toNat = 0x205F || c.toNat = 0x3000 || c.toNat = 0xFEFF

/-- `String.prototype.trim` on the character list: drop leading and
trailing JavaScript whitespace. -/
def jsTrimList (cs : List Char) : List Char :=
  ((cs.dropWhile jsWhitespace).reverse.dropWhile jsWhitespace).reverse

/-- `String.prototype.trim`. -/
def jsTrim (s : String) : String := ⟨jsTrimList s.data⟩

/-- `String.prototype.split` with a one-character separator: splits on
every occurrence, keeps empty parts, and returns `[[]]` on the empty
string.  Models `raw.split('\n')` and `line.split(':')`. -/
def splitOnChar (sep : Char) : List Char → List (List Char)
  | [] => [[]]
  | c :: rest =>
    if c = sep then
      [] :: splitOnChar sep rest
    else
      match splitOnChar sep rest with
      | [] => [[c]]
      | p :: ps => (c :: p) :: ps

/-- `Array.prototype.join(':')` on the remaining parts:
`parts.slice(1).join(':')`. -/
def joinColon (parts : List (List Char)) : List Char :=
  List.intercalate [':'] parts

/-- One step of the inline parser of the generate handler
(src/index.tsx lines 253-263): split the line on every colon; if there
are at least two parts and the first part trims to a non-empty string,
the term is the trimmed first part and the definition is the remaining
parts rejoined with a colon and trimmed; a candidate with an empty
definition is dropped (`null`). -/
def parseLine (line : List Char) : Option Flashcard :=
  let parts := splitOnChar ':' line
  if 2 ≤ parts.length ∧ jsTrimList (parts.headD []) ≠ [] then
    let term := jsTrimList (parts.headD [])
    let definition := jsTrimList (joinColon parts.tail)
    if definition ≠ [] then some ⟨⟨term⟩, ⟨definition⟩⟩ else none
  else none

/-- The inline response parser of the generate handler (src/index.tsx
lines 251-264): split the response on newlines, map each line through
the candidate step, and keep the non-`null` results in order
(`.map(...).filter(card => card !== null)`). -/
def parseFlashcards (raw : String) : List Flashcard :=
  (splitOnChar '\n' raw.data).filterMap parseLine

example : parseFlashcards "" = [] := by decide
example : parseFlashcards "A: B\nC: D" =
    [⟨"A", "B"⟩, ⟨"C", "D"⟩] := by decide
example : parseFlashcards "NoColonHere" = [] := by decide
example : parseFlashcards "Empty:" = [] := by decide
example : parseFlashcards "Term: part1: part2" =
    [⟨"Term", "part1: part2"⟩] := by decide
example : parseFlashcards "  Spaced  :  value  " =
    [⟨"Spaced", "value"⟩] := by decide

/-- `text.startsWith(p)` (ECMAScript `String.prototype.startsWith`):
the characters of `p` are a prefix of the characters of `text`. -/
def startsWithJs (text p : String) : Bool :=
  p.data.isPrefixOf text.data

/-- `isUrl` (src/index.tsx lines 141-149).  The source first runs
`new URL(text)`; whether that constructor accepts `text` is a property
of the WHATWG URL parser of the host platform, not of this repository, so it
enters the model as the parameter `urlParses`.  If the constructor
throws, the result is `false`; otherwise the result is the literal
prefix check `startsWith` against the two scheme prefixes. -/
def isUrl (urlParses : String → Bool) (text : String) : Bool :=
  if urlParses text then
    startsWithJs text "http://" || startsWithJs text "https://"
  else false

/-- The URL-style template of `createPrompt` (src/index.tsx lines 153-156). -/
def urlPromptTemplate (topic : String) : String :=
  "Generate a list of flashcards that summarize the key information from the content at this URL: \"" ++ topic ++ "\". Each flashcard should have a term and a concise definition. Format the output as a list of \"Term: Definition\" pairs, with each pair on a new line.\n    Example:\n    Roman Republic: The period of ancient Roman civilization beginning with the overthrow of the Roman Kingdom.\n    Julius Caesar: A Roman general and statesman who played a critical role in the events that led to the demise of the Roman Republic."

/-- The topic-style template of `createPrompt` (src/index.tsx lines 158-161). -/
def topicPromptTemplate (topic : String) : String :=
  "Generate a list of flashcards for the following topic or text: \"" ++ topic ++ "\". Each flashcard should have a term and a concise definition. Format the output as a list of \"Term: Definition\" pairs, with each pair on a new line. Ensure terms and definitions are distinct and clearly separated by a single colon.\n  Example output for the topic \"Spanish Greetings\":\n  Hello: Hola\n  Goodbye: AdiÃ³s"

/-- `createPrompt` (src/index.tsx lines 151-162), parameterized like
`isUrl` by the host URL parser. -/
def createPrompt (urlParses : String → Bool) (topic : String) : String :=
  if isUrl urlParses topic then urlPromptTemplate topic
  else topicPromptTemplate topic

/-- The regex replace of `escapeCsvField`: every double quote is doubled. -/
def escQuotes : List Char → List Char
  | [] => []
  | c :: rest =>
    if c = '"' then '"' :: '"' :: escQuotes rest
    else c :: escQuotes rest

/-- `escapeCsvField` (src/index.tsx lines 109-114): if the field matches
`/[",\n]/`, wrap it in double quotes with internal quotes doubled;
otherwise return it unchanged. -/
def escapeCsvField (field : String) : String :=
  if field.data.any (fun c => c = '"' || c = ',' || c = '\n') then
    ⟨'"' :: (escQuotes field.data ++ ['"'])⟩
  else field

/-- One CSV row of the export handler (src/index.tsx lines 117-121):
escaped term, comma, escaped definition. -/
def csvRow (card : Flashcard) : String :=
  escapeCsvField card.term ++ "," ++ escapeCsvField card.definition

/-- The CSV export click handler (src/index.tsx lines 103-135),
restricted to the text it serializes: it returns early (no file) when
the current list is empty, and otherwise builds
the header line, a newline, then the rows joined with newlines. -/
def exportCsv (currentFlashcards : List Flashcard) : Option String :=
  if currentFlashcards.length = 0 then none
  else
    some ("Term,Definition\n" ++
      String.intercalate "\n" (currentFlashcards.map csvRow))

/-- The message of `displayFlashcards` for an empty parsed list
(src/index.tsx lines 221-222). -/
def noValidCardsMessage : String :=
  "No valid flashcards could be generated from the response. Please check the format."

/-- The message of the generate handler for an empty response
(src/index.tsx lines 269-270). -/
def failedToGenerateMessage : String :=
  "Failed to generate flashcards or received an empty response. Please try again."

/-- The UI state the response branch of the generate handler writes:
the error message, the stored list `currentFlashcards`, and whether the
CSV export button is hidden. -/
structure UiState where
  errorMessage : String
  currentFlashcards : List Flashcard
  exportCsvHidden : Bool
deriving DecidableEq, Repr

/-- `displayFlashcards` (src/index.tsx lines 164-224) as a state
producer: it first clears the container, the stored list and hides the
export button; a non-empty list then clears the error message, stores
the list and shows the button, while an empty list sets the
no-valid-cards message. -/
def displayFlashcards (flashcards : List Flashcard) : UiState :=
  if flashcards.length > 0 then
    ⟨"", flashcards, false⟩
  else
    ⟨noValidCardsMessage, [], true⟩

/-- The response branch of the generate handler (src/index.tsx lines
248-271): `responseText` defaults to the empty string when `result.text` is absent; a truthy (non-empty)
response is parsed and displayed, an empty one sets the
failed-to-generate message without touching the parser. -/
def generateResponsePhase (text : Option String) : UiState :=
  let responseText := text.getD ""
  if responseText ≠ "" then
    displayFlashcards (parseFlashcards responseText)
  else
    ⟨failedToGenerateMessage, [], true⟩

/-- The parsing algorithm in the own words of the specification (spec.md
section 4.2): split into lines on newline boundaries; split each line on
every colon; a line yields a candidate only if there are at least two
parts and the first part, trimmed, is non-empty; the term is the first
part trimmed and the definition is the remaining parts rejoined with a
colon, then trimmed; a candidate with an empty definition is discarded. -/
def specParseLine (line : List Char) : Option Flashcard :=
  match splitOnChar ':' line with
  | first :: second :: more =>
    if jsTrimList first = [] then none
    else
      let defn := jsTrimList (List.intercalate [':'] (second :: more))
      if defn = [] then none
      else some ⟨⟨jsTrimList first⟩, ⟨defn⟩⟩
  | _ => none

/-- The whole parsing algorithm as the specification states it. -/
def specParseFlashcards (raw : String) : List Flashcard :=
  (splitOnChar '\n' raw.data).filterMap specParseLine

/-- CSV field quoting in the own words of the specification (spec.md
section 6): a field containing a comma, double-quote, or newline is
wrapped in double quotes with internal double-quotes doubled; other
fields are left alone. -/
def specQuoteCsvField (field : String) : String :=
  if ',' ∈ field.data ∨ '"' ∈ field.data ∨ '\n' ∈ field.data then
    "\"" ++ String.mk ((field.data.map
      (fun c => if c = '"' then ['"', '"'] else [c])).flatten) ++ "\""
  else field

/-- The CSV document in the own words of the specification: header line
`Term,Definition`, one row per flashcard in set order, term then
definition separated by a comma, rows joined by a single newline. -/
def specCsvContent (cards : List Flashcard) : String :=
  "Term,Definition\n" ++
    String.intercalate "\n"
      (cards.map
        (fun card =>
          specQuoteCsvField card.term ++ "," ++
            specQuoteCsvField card.definition))

example : escapeCsvField "He said, \"hi\"" = "\"He said, \"\"hi\"\"\"" := by decide
example : exportCsv [⟨"A", "He said, \"hi\""⟩] =
    some "Term,Definition\nA,\"He said, \"\"hi\"\"\"" := by decide
example : generateResponsePhase none = ⟨failedToGenerateMessage, [], true⟩ := by decide
example : generateResponsePhase (some "junk") =
    ⟨noValidCardsMessage, [], true⟩ := by decide
example : generateResponsePhase (some "A: B") = ⟨"", [⟨"A", "B"⟩], false⟩ := by decide
example (u : String → Bool) : createPrompt u "Roman history" =
    topicPromptTemplate "Roman history" := by
  cases h : u "Roman history" <;> simp [createPrompt, isUrl, h, startsWithJs]

/-- `splitOnChar` never returns an empty list of parts, matching the
ECMAScript `split`, whose result array is never empty for a string
separator. -/
theorem splitOnChar_ne_nil (sep : Char) (cs : List Char) :
    splitOnChar sep cs ≠ [] := by
  induction cs with
  | nil => simp [splitOnChar]
  | cons c rest ih =>
    by_cases h : c = sep
    · simp [splitOnChar, h]
    · simp only [splitOnChar, if_neg h]
      split <;> simp

/-- No part returned by `splitOnChar` contains the separator. -/
theorem not_mem_of_mem_splitOnChar (sep : Char) (cs : List Char)
    (p : List Char) (hp : p ∈ splitOnChar sep cs) : sep ∉ p := by
  induction cs generalizing p with
  | nil =>
    simp only [splitOnChar, List.mem_singleton] at hp
    subst hp; simp
  | cons c rest ih =>
    by_cases h : c = sep
    · simp only [splitOnChar, if_pos h, List.mem_cons] at hp
      rcases hp with rfl | hp
      · simp
      · exact ih p hp
    · simp only [splitOnChar, if_neg h] at hp
      split at hp
      next heq => exact absurd heq (splitOnChar_ne_nil sep rest)
      next q ps heq =>
        rcases List.mem_cons.mp hp with rfl | hp2
        · intro hmem
          rcases List.mem_cons.mp hmem with rfl | hmem2
          · exact h rfl
          · exact ih q (by rw [heq]; exact List.mem_cons_self q ps) hmem2
        · exact ih p (by rw [heq]; exact List.mem_cons_of_mem q hp2)

/-- Trimming only removes characters: the trimmed list is contained in
the original. -/
theorem jsTrimList_subset (cs : List Char) : jsTrimList cs ⊆ cs := by
  intro c hc
  unfold jsTrimList at hc
  rw [List.mem_reverse] at hc
  have h1 := (List.dropWhile_sublist jsWhitespace).subset hc
  rw [List.mem_reverse] at h1
  exact (List.dropWhile_sublist jsWhitespace).subset h1

/-- The survivors of a `filterMap`, wrapped back in `some`, form a
sublist of the mapped list: every output element comes from a line, in
the original line order. -/
theorem map_some_filterMap_sublist {α β : Type} (f : α → Option β)
    (l : List α) :
    ((l.filterMap f).map some).Sublist (l.map f) := by
  induction l with
  | nil => simp
  | cons x xs ih =>
    cases hf : f x with
    | none =>
      simp only [List.filterMap_cons, hf, List.map_cons]
      exact ih.cons none
    | some y =>
      simp only [List.filterMap_cons, hf, List.map_cons]
      exact ih.cons₂ (some y)

/-- A `filterMap` keeps one output per hit: its length is the number of
inputs on which the function succeeds, so duplicates are not merged. -/
theorem length_filterMap_eq_countP {α β : Type} (f : α → Option β)
    (l : List α) :
    (l.filterMap f).length = l.countP (fun a => (f a).isSome) := by
  induction l with
  | nil => simp
  | cons x xs ih =>
    cases hf : f x with
    | none => simp [List.filterMap_cons, hf, List.countP_cons, ih]
    | some y => simp [List.filterMap_cons, hf, List.countP_cons, ih]

/-- Anatomy of a successful `parseLine`: the term is the trimmed first
part, the definition is the trimmed rejoined rest, and both are
non-empty. -/
theorem parseLine_some_cases (line : List Char) (card : Flashcard)
    (h : parseLine line = some card) :
    card.term.data = jsTrimList ((splitOnChar ':' line).headD []) ∧
      card.definition.data =
        jsTrimList (joinColon (splitOnChar ':' line).tail) ∧
      card.term.data ≠ [] ∧ card.definition.data ≠ [] := by
  simp only [parseLine] at h
  split at h
  · next hc =>
    split at h
    · next hd =>
      obtain rfl := (Option.some.injEq _ _).mp h
      exact ⟨rfl, rfl, hc.2, hd⟩
    · exact absurd h (by simp)
  · exact absurd h (by simp)

/-- The candidate step of the source parser agrees line by line with the
candidate step written from the specification. -/
theorem parseLine_eq_specParseLine (line : List Char) :
    parseLine line = specParseLine line := by
  simp only [parseLine, specParseLine, joinColon]
  cases h : splitOnChar ':' line with
  | nil => simp
  | cons first rest =>
    cases rest with
    | nil => simp
    | cons second more =>
      simp only [List.length_cons, List.headD_cons, List.tail_cons]
      by_cases h1 : jsTrimList first = []
      · simp [h1]
      · rw [if_pos ⟨by omega, h1⟩, if_neg h1]
        by_cases h2 :
            jsTrimList (List.intercalate [':'] (second :: more)) = []
        · simp [h2]
        · simp [h2]

/-- Doubling quotes recursively equals the flatten formulation used by
the specification-side quoting. -/
theorem escQuotes_eq_flatten (cs : List Char) :
    escQuotes cs =
      (cs.map (fun c => if c = '"' then ['"', '"'] else [c])).flatten := by
  induction cs with
  | nil => simp [escQuotes]
  | cons c rest ih =>
    by_cases h : c = '"'
    · simp [escQuotes, h, ih]
    · simp [escQuotes, h, ih]

/-- The source field escaping agrees with the specification-side
quoting on every field. -/
theorem escapeCsvField_eq_specQuote (field : String) :
    escapeCsvField field = specQuoteCsvField field := by
  simp only [escapeCsvField, specQuoteCsvField]
  have hmem :
      (field.data.any fun c => c = '"' || c = ',' || c = '\n') = true ↔
        (',' ∈ field.data ∨ '"' ∈ field.data ∨ '\n' ∈ field.data) := by
    rw [List.any_eq_true]
    constructor
    · rintro ⟨c, hc, hp⟩
      simp only [Bool.or_eq_true, decide_eq_true_eq] at hp
      rcases hp with (rfl | rfl) | rfl
      · exact Or.inr (Or.inl hc)
      · exact Or.inl hc
      · exact Or.inr (Or.inr hc)
    · rintro (h | h | h) <;> exact ⟨_, h, by simp⟩
  by_cases hc : ',' ∈ field.data ∨ '"' ∈ field.data ∨ '\n' ∈ field.data
  · rw [if_pos (hmem.mpr hc), if_pos hc, ← escQuotes_eq_flatten]
    apply String.ext
    rw [String.data_append, String.data_append]
    rfl
  · rw [if_neg (fun hq => hc (hmem.mp hq)), if_neg hc]

/-- The two prompt templates are never the same string: their fixed
prefixes already differ in the first forty characters. -/
theorem urlPromptTemplate_ne_topicPromptTemplate (topic : String) :
    urlPromptTemplate topic ≠ topicPromptTemplate topic := by
  intro h
  have hd := congrArg String.data h
  unfold urlPromptTemplate topicPromptTemplate at hd
  rw [String.data_append, String.data_append, String.data_append,
    String.data_append, List.append_assoc, List.append_assoc] at hd
  have h40 := congrArg (List.take 40) hd
  rw [List.take_append_of_le_length (by decide),
    List.take_append_of_le_length (by decide)] at h40
  exact absurd h40 (by decide)

/-- Claim C1: for every input string, the response parser returns
exactly the list produced by the algorithm the specification states:
split into lines on newline boundaries, split each line on every colon,
keep a line only when the split has at least two parts and the first
part, trimmed, is non-empty, take the trimmed first part as the term
and the remaining parts rejoined with a colon and trimmed as the
definition, and discard the record when that definition is empty. -/
theorem parseFlashcards_eq_spec_algorithm (raw : String) :
    parseFlashcards raw = specParseFlashcards raw := by
  unfold parseFlashcards specParseFlashcards
  rw [show parseLine = specParseLine from funext parseLine_eq_specParseLine]

/-- Claim C2: `createPrompt` emits the URL-style template exactly when
the topic is accepted by the URL parser of the host (the `urlParses`
parameter) and literally starts with the http or https scheme prefix;
in every other case it emits the topic-style template.  In particular
the example URL receives the URL-style template whenever the host
parser accepts it, while the two non-URL examples always receive the
topic-style template, whatever the host parser does. -/
theorem createPrompt_classification (urlParses : String → Bool)
    (topic : String) :
    (createPrompt urlParses topic = urlPromptTemplate topic ↔
      urlParses topic = true ∧
        (startsWithJs topic "http://" = true ∨
          startsWithJs topic "https://" = true)) ∧
    (¬(urlParses topic = true ∧
        (startsWithJs topic "http://" = true ∨
          startsWithJs topic "https://" = true)) →
      createPrompt urlParses topic = topicPromptTemplate topic) ∧
    (urlParses "https://example.com/page" = true →
      createPrompt urlParses "https://example.com/page" =
        urlPromptTemplate "https://example.com/page") ∧
    createPrompt urlParses "Roman history" =
      topicPromptTemplate "Roman history" ∧
    createPrompt urlParses "httpsomething" =
      topicPromptTemplate "httpsomething" := by
  have hiso : ∀ t, isUrl urlParses t = true ↔
      (urlParses t = true ∧
        (startsWithJs t "http://" = true ∨
          startsWithJs t "https://" = true)) := by
    intro t
    unfold isUrl
    cases h : urlParses t <;> simp [h]
  refine ⟨⟨?_, ?_⟩, ?_, ?_, ?_, ?_⟩
  · intro hcp
    by_cases hu : isUrl urlParses topic = true
    · exact (hiso topic).mp hu
    · exfalso
      unfold createPrompt at hcp
      rw [if_neg hu] at hcp
      exact urlPromptTemplate_ne_topicPromptTemplate topic hcp.symm
  · intro hcond
    unfold createPrompt
    rw [if_pos ((hiso topic).mpr hcond)]
  · intro hn
    unfold createPrompt
    rw [if_neg (fun hu => hn ((hiso topic).mp hu))]
  · intro hu
    unfold createPrompt
    rw [if_pos ((hiso _).mpr ⟨hu, Or.inr (by decide)⟩)]
  · unfold createPrompt
    rw [if_neg ?_]
    intro hu
    rcases ((hiso "Roman history").mp hu).2 with h | h <;>
      exact absurd h (by decide)
  · unfold createPrompt
    rw [if_neg ?_]
    intro hu
    rcases ((hiso "httpsomething").mp hu).2 with h | h <;>
      exact absurd h (by decide)

/-- Witness for C2: with a host parser that accepts everything, the
example URL receives the URL-style template. -/
theorem createPrompt_classification_witness :
    createPrompt (fun _ => true) "https://example.com/page" =
      urlPromptTemplate "https://example.com/page" :=
  (createPrompt_classification (fun _ => true)
    "https://example.com/page").2.2.1 rfl

/-- Claim C3: for a non-empty current set, the CSV export serializes
exactly the header line, a newline, and one row per flashcard in set
order, term then definition separated by a comma, with fields
containing a comma, a double quote, or a newline wrapped in double
quotes with internal quotes doubled, and all rows joined by a single
newline with nothing after the join. -/
theorem exportCsv_eq_spec_csv (cards : List Flashcard)
    (h : cards ≠ []) :
    exportCsv cards = some (specCsvContent cards) := by
  unfold exportCsv specCsvContent
  rw [if_neg (fun h0 => h (List.length_eq_zero.mp h0))]
  have hrow : csvRow = fun card =>
      specQuoteCsvField card.term ++ "," ++
        specQuoteCsvField card.definition := by
    funext card
    unfold csvRow
    rw [escapeCsvField_eq_specQuote, escapeCsvField_eq_specQuote]
  rw [hrow]

/-- Witness for C3: a one-card set whose definition holds a comma and
quotes is exported with the standard CSV quoting. -/
theorem exportCsv_eq_spec_csv_witness :
    ([⟨"A", "He said, \"hi\""⟩] : List Flashcard) ≠ [] ∧
      exportCsv [⟨"A", "He said, \"hi\""⟩] =
        some (specCsvContent [⟨"A", "He said, \"hi\""⟩]) :=
  ⟨by decide, exportCsv_eq_spec_csv [⟨"A", "He said, \"hi\""⟩] (by decide)⟩

/-- Claim C4: the single line with two colons yields one record whose
definition keeps every colon after the first. -/
theorem parseFlashcards_keeps_later_colons :
    parseFlashcards "Term: part1: part2" =
      [⟨"Term", "part1: part2"⟩] := by decide

/-- Claim C5: the records survive in the order of the lines that
produced them (their `some`-image is a sublist of the line-by-line
parse results) and every successful line keeps its own record, so
duplicates are not merged. -/
theorem parseFlashcards_order_and_duplicates (raw : String) :
    ((parseFlashcards raw).map some).Sublist
        ((splitOnChar '\n' raw.data).map parseLine) ∧
      (parseFlashcards raw).length =
        (splitOnChar '\n' raw.data).countP
          (fun line => (parseLine line).isSome) :=
  ⟨map_some_filterMap_sublist parseLine _,
    length_filterMap_eq_countP parseLine _⟩

/-- Claim C6: the parser is a total function, so every input, however
malformed, produces a list, and every record in it is well-formed: both
the term and the definition are non-empty strings. -/
theorem parseFlashcards_wellformed (raw : String) (card : Flashcard)
    (h : card ∈ parseFlashcards raw) :
    card.term ≠ "" ∧ card.definition ≠ "" := by
  obtain ⟨line, -, hline⟩ := List.mem_filterMap.mp h
  obtain ⟨-, -, htn, hdn⟩ := parseLine_some_cases line card hline
  constructor
  · intro he
    exact htn (by rw [he])
  · intro he
    exact hdn (by rw [he])

/-- Witness for C6: the record parsed from a simple line is
well-formed. -/
theorem parseFlashcards_wellformed_witness :
    (⟨"A", "B"⟩ : Flashcard) ∈ parseFlashcards "A: B" ∧
      ((⟨"A", "B"⟩ : Flashcard).term ≠ "" ∧
        (⟨"A", "B"⟩ : Flashcard).definition ≠ "") :=
  ⟨by decide, parseFlashcards_wellformed "A: B" ⟨"A", "B"⟩ (by decide)⟩

/-- Claim C7: the parser is deterministic and free of hidden state: it
is a function of the raw text alone, so two applications to the same
raw text yield structurally identical lists. -/
theorem parseFlashcards_deterministic (raw raw' : String)
    (h : raw = raw') :
    parseFlashcards raw = parseFlashcards raw' := by rw [h]

/-- Witness for C7: two applications on the same concrete text agree. -/
theorem parseFlashcards_deterministic_witness :
    ("A: B" : String) = "A: B" ∧
      parseFlashcards "A: B" = parseFlashcards "A: B" :=
  ⟨rfl, parseFlashcards_deterministic "A: B" "A: B" rfl⟩

/-- Claim C8: an absent or empty response takes the failed-to-generate
branch, whose state carries the failed-to-generate message and an empty
stored list, while a non-empty response that parses to zero records
takes the display branch with the no-valid-flashcards message, and the
two messages are different strings, so the branches are never
confused. -/
theorem generateResponsePhase_branches (text : Option String) :
    ((text = none ∨ text = some "") →
      generateResponsePhase text =
        ⟨failedToGenerateMessage, [], true⟩) ∧
    (∀ s, text = some s → s ≠ "" → parseFlashcards s = [] →
      generateResponsePhase text = ⟨noValidCardsMessage, [], true⟩) ∧
    failedToGenerateMessage ≠ noValidCardsMessage := by
  refine ⟨?_, ?_, by decide⟩
  · rintro (rfl | rfl) <;> simp [generateResponsePhase]
  · rintro s rfl hs hp
    simp [generateResponsePhase, hs, hp, displayFlashcards]

/-- Witness for C8: the absent response and an unparseable non-empty
response land in the two distinct states. -/
theorem generateResponsePhase_branches_witness :
    generateResponsePhase none = ⟨failedToGenerateMessage, [], true⟩ ∧
      generateResponsePhase (some "junk") =
        ⟨noValidCardsMessage, [], true⟩ :=
  ⟨(generateResponsePhase_branches none).1 (Or.inl rfl),
    (generateResponsePhase_branches (some "junk")).2.1 "junk" rfl
      (by decide) (by decide)⟩

/-- Claim C9: every record the parser produces has a term with no colon
in it: the term comes from the text before the first colon of its
line. -/
theorem parseFlashcards_term_no_colon (raw : String) (card : Flashcard)
    (h : card ∈ parseFlashcards raw) : ':' ∉ card.term.data := by
  obtain ⟨line, -, hline⟩ := List.mem_filterMap.mp h
  obtain ⟨ht, -, -, -⟩ := parseLine_some_cases line card hline
  rw [ht]
  intro hc
  have hsub := jsTrimList_subset _ hc
  cases hs : splitOnChar ':' line with
  | nil => exact absurd hs (splitOnChar_ne_nil ':' line)
  | cons p ps =>
    rw [hs, List.headD_cons] at hsub
    exact not_mem_of_mem_splitOnChar ':' line p
      (by rw [hs]; exact List.mem_cons_self p ps) hsub

/-- Witness for C9: the term of the record parsed from a two-colon line
holds no colon. -/
theorem parseFlashcards_term_no_colon_witness :
    (⟨"Term", "part1: part2"⟩ : Flashcard) ∈
        parseFlashcards "Term: part1: part2" ∧
      ':' ∉ (⟨"Term", "part1: part2"⟩ : Flashcard).term.data :=
  ⟨by decide, parseFlashcards_term_no_colon "Term: part1: part2"
    ⟨"Term", "part1: part2"⟩ (by decide)⟩

/-- Claim C10: a field with no comma, no double quote and no newline
passes through `escapeCsvField` unchanged, so it appears in the CSV
output exactly as it is, with no quoting. -/
theorem escapeCsvField_id_of_plain (field : String)
    (h : ',' ∉ field.data ∧ '"' ∉ field.data ∧ '\n' ∉ field.data) :
    escapeCsvField field = field := by
  unfold escapeCsvField
  rw [if_neg]
  intro hc
  rw [List.any_eq_true] at hc
  obtain ⟨c, hcm, hcp⟩ := hc
  simp only [Bool.or_eq_true, decide_eq_true_eq] at hcp
  rcases hcp with (rfl | rfl) | rfl
  · exact h.2.1 hcm
  · exact h.1 hcm
  · exact h.2.2 hcm

/-- Witness for C10: a plain field is left untouched. -/
theorem escapeCsvField_id_of_plain_witness :
    (',' ∉ ("abc" : String).data ∧ '"' ∉ ("abc" : String).data ∧
        '\n' ∉ ("abc" : String).data) ∧
      escapeCsvField "abc" = "abc" :=
  ⟨by decide, escapeCsvField_id_of_plain "abc" (by decide)⟩
